import Mathlib

/-!
Verification of the tranespotting protocol-analysis tools.

Shallow embedding of the Python sources:
* `tools/packet.py`          — `Packet`, `Packet.from_bytes`, `Packet.to_hex`
* `tools/analyze.py`         — `load_capture`, `CaptureAnalyzer.analyze`, `most_common`
* `tools/replay.py`          — `load_capture` (same record-reading loop)
* `tools/baudrate_detect.py` — `analyze_data_quality`, the probing loop of `main`
* `tools/signal_analyze.py`  — `find_edges`, `analyze_pulse_widths`,
                               `classify_physical_layer`, `check_ac_synchronization`

Bytes are modelled as `Nat` (Python `bytes` elements are `0 ≤ b < 256`),
time values and ratios as `ℚ` (Python floats; all comparisons the code makes
are against short decimal constants, where rational and double arithmetic
agree on every reachable input). Python code that can raise is modelled in
`Option`: `none` is an uncaught exception.
-/

namespace Tranespotting

/-! ## tools/packet.py -/

/-- The `Packet` dataclass of `tools/packet.py` (field-for-field, with the
dataclass defaults). `parse_error = none` is Python `parse_error is None`. -/
structure Packet where
  raw : List Nat
  timestamp : ℚ := 0
  dest_addr : Nat := 0
  src_addr : Nat := 0
  msg_type : Nat := 0
  sequence : Nat := 0
  payload_length : Nat := 0
  header_extra : List Nat := []
  payload : List Nat := []
  checksum : Nat := 0
  checksum_valid : Bool := false
  parse_error : Option String := none
  deriving Repr, DecidableEq

/-- `Packet._verify_checksum`: the placeholder always returns `True`. -/
def Packet.verify_checksum (_ : Packet) : Bool := true

/-- `Packet.calculate_checksum`: `sum(data) & 0xFFFF` (placeholder). -/
def Packet.calculate_checksum (data : List Nat) : Nat := data.sum % 65536

/-- `Packet.from_bytes` of `tools/packet.py`.

Python slices translate as `data[a:b] = (data.drop a).take (b - a)` and
`data[10:-2] = (data.drop 10).take (data.length - 12)`; `(x << 8) | y` is
`Nat.lor (Nat.shiftLeft x 8) y`. The `try/except` wrapper is dead in the
model: every operation in the guarded block is total once `12 ≤ len(data)`. -/
def Packet.from_bytes (data : List Nat) (timestamp : ℚ := 0) : Packet :=
  if data.length < 12 then
    { raw := data, timestamp := timestamp,
      parse_error := some ("Packet too short: " ++ toString data.length ++ " bytes") }
  else
    let payload_length := data.getD 6 0
    let payload_end := 10 + payload_length
    let mismatch : Bool := data.length - 2 < payload_end
    { raw := data, timestamp := timestamp,
      dest_addr := Nat.lor (Nat.shiftLeft (data.getD 0 0) 8) (data.getD 1 0),
      src_addr := Nat.lor (Nat.shiftLeft (data.getD 2 0) 8) (data.getD 3 0),
      msg_type := data.getD 4 0,
      sequence := data.getD 5 0,
      payload_length := payload_length,
      header_extra := (data.drop 7).take 3,
      payload :=
        if mismatch then (data.drop 10).take (data.length - 12)
        else (data.drop 10).take payload_length,
      checksum := Nat.lor (Nat.shiftLeft (data.getD (data.length - 2) 0) 8)
                          (data.getD (data.length - 1) 0),
      checksum_valid := true,
      parse_error :=
        if mismatch then
          some ("Payload length mismatch: expected " ++ toString payload_length ++
                ", available " ++ toString (data.length - 12))
        else none }

/-- One byte rendered as two lowercase hex digits, as Python `bytes.hex` does. -/
def byteHex (b : Nat) : String :=
  let digit := fun (d : Nat) =>
    if d < 10 then String.singleton (Char.ofNat (48 + d))
    else String.singleton (Char.ofNat (87 + d))
  digit (b / 16 % 16) ++ digit (b % 16)

/-- CPython `bytes.hex(sep)`: when a separator argument is supplied it must be
a single character, otherwise `ValueError: sep must be length 1.` is raised
(modelled as `Except.error`); on success the hex pairs are joined with the
separator between every pair of adjacent bytes. -/
def bytesHex (bs : List Nat) (sep : String) : Except String String :=
  if sep.length = 1 then Except.ok (String.intercalate sep (bs.map byteHex))
  else Except.error "sep must be length 1."

/-- `Packet.to_hex`: `self.raw.hex(separator)` with default separator `" "`. -/
def Packet.to_hex (p : Packet) (separator : String := " ") : Except String String :=
  bytesHex p.raw separator

/-! ## The capture-file reading loop of tools/analyze.py / tools/replay.py

`CaptureAnalyzer.load_capture` and `PacketReplayer.load_capture` run the same
loop: read a 12-byte record header (8-byte little-endian double timestamp and
4-byte little-endian unsigned length, `struct.unpack("<dI", header)`), stop if
fewer than 12 bytes remain, read `length` bytes of data, stop if fewer than
`length` bytes were obtained, else keep the record and continue. The timestamp
is kept as its 8 raw bytes: no claim inspects its numeric (double) value. -/

/-- Little-endian unsigned 32-bit value of a 4-byte list. -/
def leU32 (bs : List Nat) : Nat :=
  bs.getD 0 0 + 256 * bs.getD 1 0 + 65536 * bs.getD 2 0 + 16777216 * bs.getD 3 0

/-- One record of the capture file: the raw timestamp bytes and the frame data. -/
structure CaptureRecord where
  tsBytes : List Nat
  data : List Nat
  deriving Repr, DecidableEq

/-- The `while True` body of `load_capture`, with explicit fuel. Each iteration
consumes at least 12 bytes, so `fuel = stream.length` bounds the iteration
count; the fuel never runs out before the loop's own exit conditions fire. -/
def load_capture_go : Nat → List Nat → List CaptureRecord
  | 0, _ => []
  | fuel + 1, stream =>
    if stream.length < 12 then []
    else
      let header := stream.take 12
      let recLen := leU32 (header.drop 8)
      let body := stream.drop 12
      let data := body.take recLen
      if data.length < recLen then []
      else { tsBytes := header.take 8, data := data } ::
           load_capture_go fuel (body.drop recLen)

/-- `load_capture` of `tools/analyze.py` (and, identically, `tools/replay.py`):
the list of records read from the capture byte stream. -/
def load_capture (stream : List Nat) : List CaptureRecord :=
  load_capture_go stream.length stream

/-! ## tools/analyze.py — CaptureAnalyzer.analyze and Counter.most_common -/

/-- `collections.Counter` increment `c[k] += 1`: keys live in first-insertion
order; a missing key is appended with count 1. -/
def counterBump (c : List (Nat × Nat)) (k : Nat) : List (Nat × Nat) :=
  match c with
  | [] => [(k, 1)]
  | (k0, n) :: rest =>
    if k0 = k then (k0, n + 1) :: rest else (k0, n) :: counterBump rest k

/-- Stable insertion of an entry into a list already sorted by descending
count: the entry goes after every earlier entry of strictly greater or equal
count it does not beat. -/
def insertByCountDesc (x : Nat × Nat) : List (Nat × Nat) → List (Nat × Nat)
  | [] => [x]
  | y :: ys => if x.2 < y.2 then y :: insertByCountDesc x ys else x :: y :: ys

/-- Stable sort by descending count (insertion sort). `Counter.most_common()`
is CPython `sorted(self.items(), key=itemgetter(1), reverse=True)`: a stable
descending sort of the items in key-insertion order; any stable sort by the
same key computes the same list. -/
def sortByCountDesc : List (Nat × Nat) → List (Nat × Nat)
  | [] => []
  | x :: xs => insertByCountDesc x (sortByCountDesc xs)

/-- `Counter.most_common()` (without an `n` argument). -/
def most_common (c : List (Nat × Nat)) : List (Nat × Nat) := sortByCountDesc c

/-- `CaptureAnalyzer.analyze`: starting from cleared counters, every packet
without a `parse_error` bumps the address counter at `src_addr` then at
`dest_addr`, and the message-type counter at `msg_type`. Returns the
`(addresses, message_types)` counters. (The `conversations` grouping is not
needed by any claim.) -/
def CaptureAnalyzer.analyze (packets : List Packet) :
    List (Nat × Nat) × List (Nat × Nat) :=
  packets.foldl
    (fun acc p =>
      if p.parse_error.isSome then acc
      else (counterBump (counterBump acc.1 p.src_addr) p.dest_addr,
            counterBump acc.2 p.msg_type))
    ([], [])

/-- The address ranking printed by `print_summary`:
`self.addresses.most_common()`. -/
def address_frequencies (packets : List Packet) : List (Nat × Nat) :=
  most_common (CaptureAnalyzer.analyze packets).1

/-- The message-type ranking printed by `print_summary`:
`self.message_types.most_common()`. -/
def message_type_frequencies (packets : List Packet) : List (Nat × Nat) :=
  most_common (CaptureAnalyzer.analyze packets).2

/-! ## tools/baudrate_detect.py -/

/-- The candidate baud rates of `COMMON_BAUD_RATES`, in probe order. -/
def COMMON_BAUD_RATES : List Nat := [9600, 19200, 38400, 57600, 115200, 4800, 2400, 1200]

/-- Python `f"{x:.0%}"`, approximately: the percentage rounded to an integer
(used only inside diagnostic text; no claim reads these characters). -/
def pctText (x : ℚ) : String := toString (round (x * 100) : ℤ) ++ "%"

/-- The dict returned by `analyze_data_quality`: the empty-data dict carries
only `score` and `reason`, hence the `Option` fields. -/
structure QualityResult where
  score : ℤ
  reason : String
  printable_ratio : Option ℚ := none
  noise_ratio : Option ℚ := none
  has_patterns : Option Bool := none
  deriving Repr, DecidableEq

/-- The pattern scan of `analyze_data_quality`:
`for pattern_len in [10, 12, 14, 16]: for i in range(len(data) - pattern_len * 2): ...`
checking `data[i : i+L] == data[i+L : i+2L]`. Python `range` of a negative
number is empty, exactly as `List.range` of a truncated `Nat` subtraction. -/
def hasRepeats (data : List Nat) : Bool :=
  [10, 12, 14, 16].any fun L =>
    (List.range (data.length - L * 2)).any fun i =>
      decide ((data.drop i).take L = (data.drop (i + L)).take L)

/-- `analyze_data_quality` of `tools/baudrate_detect.py`. Counts and ratios
are exact: `printable` counts bytes with `32 <= b < 127`, the noise ratio is
`(count 0x00 + count 0xFF) / len`, the score starts at 50, is decremented and
incremented by the three condition checks in source order, and is clamped by
`max(0, min(100, score))`. -/
def analyze_data_quality (data : List Nat) : QualityResult :=
  if data.length = 0 then { score := 0, reason := "No data received" }
  else
    let printable := (data.filter (fun b => 32 ≤ b && b < 127)).length
    let pRatio : ℚ := mkRat printable data.length
    let nulls := (data.filter (fun b => b = 0)).length
    let ones := (data.filter (fun b => b = 255)).length
    let nRatio : ℚ := mkRat (nulls + ones) data.length
    let pats := hasRepeats data
    let score0 : ℤ := 50
    let score1 := if nRatio > mkRat 3 10 then score0 - 30 else score0
    let score2 := if mkRat 1 20 < pRatio ∧ pRatio < mkRat 1 2 then score1 + 20 else score1
    let score3 := if pats then score2 + 30 else score2
    let parts :=
      (if nRatio > mkRat 3 10 then ["High noise (" ++ pctText nRatio ++ " 0x00/0xFF)"] else []) ++
      (if pats then ["Repeating patterns found"] else []) ++
      (if mkRat 1 20 < pRatio ∧ pRatio < mkRat 1 2 then ["Some ASCII (" ++ pctText pRatio ++ ")"] else [])
    { score := max 0 (min 100 score3),
      reason := if parts.isEmpty then "Inconclusive" else String.intercalate ", " parts,
      printable_ratio := some pRatio,
      noise_ratio := some nRatio,
      has_patterns := some pats }

/-- One entry of the `results` list built by `main` of
`tools/baudrate_detect.py` (the dict `{"baud": .., "bytes": .., "data": ..,
**analysis}`). -/
structure BaudResult where
  baud : Nat
  bytes : Nat
  data : List Nat
  quality : QualityResult
  deriving Repr, DecidableEq

/-- The probing loop of `main` in `tools/baudrate_detect.py`, abstracted over
the serial sampler: for each rate in order, `sample` yields the bytes that
`try_baud_rate` returned. Only when `byte_count > 0` is the candidate analyzed
and appended to `results`; a score `≥ 80` with `try_all` unset breaks out of
the loop. Zero-byte candidates are merely printed and skipped. -/
def probe_loop (rates : List Nat) (sample : Nat → List Nat) (try_all : Bool) :
    List BaudResult :=
  match rates with
  | [] => []
  | b :: rest =>
    let data := sample b
    if data.length > 0 then
      let a := analyze_data_quality data
      let r : BaudResult := { baud := b, bytes := data.length, data := data, quality := a }
      if a.score ≥ 80 ∧ try_all = false then [r]
      else r :: probe_loop rest sample try_all
    else probe_loop rest sample try_all

/-! ## tools/signal_analyze.py -/

/-- `find_edges` body: walk `samples[1:]` carrying `prev_state`, emitting a
timestamped `"rising"`/`"falling"` event at every threshold crossing. -/
def find_edges_go (threshold : ℚ) : List (ℚ × ℚ) → Bool → List (ℚ × String)
  | [], _ => []
  | (t, v) :: rest, prev =>
    let state := decide (v > threshold)
    if state ≠ prev then
      (t, if state then "rising" else "falling") :: find_edges_go threshold rest state
    else find_edges_go threshold rest prev

/-- `find_edges` of `tools/signal_analyze.py`. The first line evaluates
`samples[0][1]`, which raises `IndexError` on an empty sample list: that is
the `none` case. -/
def find_edges (samples : List (ℚ × ℚ)) (threshold : ℚ := mkRat 1 2) :
    Option (List (ℚ × String)) :=
  match samples with
  | [] => none
  | (_, v0) :: rest => some (find_edges_go threshold rest (decide (v0 > threshold)))

/-- Stable ascending insertion into a sorted list of rationals. -/
def insertAsc (x : ℚ) : List ℚ → List ℚ
  | [] => [x]
  | y :: ys => if y < x then y :: insertAsc x ys else x :: y :: ys

/-- Python `sorted` on a list of numbers (stable; ascending). -/
def sortAsc : List ℚ → List ℚ
  | [] => []
  | x :: xs => insertAsc x (sortAsc xs)

/-- `statistics.median`: middle element of the sorted list, or the average of
the two middle elements when the length is even. -/
def pyMedian (xs : List ℚ) : ℚ :=
  let s := sortAsc xs
  let n := s.length
  if n % 2 = 1 then s.getD (n / 2) 0
  else (s.getD (n / 2 - 1) 0 + s.getD (n / 2) 0) / 2

/-- The dict returned by `analyze_pulse_widths`: either an `"error"` entry or
the statistics entries. -/
inductive PulseAnalysis where
  | err (msg : String)
  | stats (pulse_count : Nat) (min_width_ms max_width_ms mean_width_ms median_width_ms : ℚ)
          (estimated_baud : ℚ) (widths : List ℚ)
  deriving Repr, DecidableEq

/-- `analyze_pulse_widths` of `tools/signal_analyze.py`: consecutive edge-time
gaps, their min/max/mean/median (reported in milliseconds), and
`estimated_baud = 1 / min_width` when `min_width > 0`, else `0`. -/
def analyze_pulse_widths (edges : List (ℚ × String)) : PulseAnalysis :=
  if edges.length < 2 then PulseAnalysis.err "Not enough edges"
  else
    let widths := (edges.zip (edges.drop 1)).map fun e => e.2.1 - e.1.1
    if widths.length = 0 then PulseAnalysis.err "No pulse widths calculated"
    else
      let s := sortAsc widths
      let minW := s.getD 0 0
      let maxW := s.getD (s.length - 1) 0
      let meanW := widths.sum / (widths.length : ℚ)
      let medW := pyMedian widths
      PulseAnalysis.stats widths.length (minW * 1000) (maxW * 1000)
        (meanW * 1000) (medW * 1000)
        (if minW > 0 then 1 / minW else 0) widths

/-- The classification dict of `classify_physical_layer`. The `"error"` branch
carries no `estimated_baud` key, hence the `Option`. The human-readable
`reason` text (interpolated float formatting) is diagnostic only — no claim
reads it — and is not modelled. -/
structure Classification where
  classification : String
  confidence : Nat
  estimated_baud : Option ℤ := none
  deriving Repr, DecidableEq

/-- Python `int()` on a rational value: truncation toward zero. -/
def pyInt (q : ℚ) : ℤ := if 0 ≤ q then ⌊q⌋ else -⌊-q⌋

/-- The `rs485_rates` table of `classify_physical_layer`, in dict insertion
order: `{9600: 0.104, 19200: 0.052, 38400: 0.026, 57600: 0.017, 115200: 0.0087}`
(bit periods in milliseconds). -/
def rs485_rates : List (Nat × ℚ) :=
  [(9600, mkRat 104 1000), (19200, mkRat 52 1000), (38400, mkRat 26 1000),
   (57600, mkRat 17 1000), (115200, mkRat 87 10000)]

/-- Python `abs` on a rational value. -/
def qabs (q : ℚ) : ℚ := if q < 0 then -q else q

/-- One step of the best-match scan: keep the entry whose period is strictly
closer to `w` than the best so far (`best_diff` starts at `float("inf")`,
modelled as `none`). -/
def closestStep (w : ℚ) (best : Option Nat × Option ℚ) (rp : Nat × ℚ) :
    Option Nat × Option ℚ :=
  let diff := qabs (w - rp.2)
  match best.2 with
  | none => (some rp.1, some diff)
  | some bd => if diff < bd then (some rp.1, some diff) else best

/-- The `best_match` computed by the RS-485 branch of
`classify_physical_layer`. -/
def closest_rate (w : ℚ) : Option Nat :=
  (rs485_rates.foldl (closestStep w) (none, none)).1

/-- `classify_physical_layer` of `tools/signal_analyze.py`. The RS-485 branch
reports `best_match or int(estimated_baud)` — Python `or` falls through on a
falsy (`None` or `0`) left operand. -/
def classify_physical_layer : PulseAnalysis → Classification
  | PulseAnalysis.err _ => { classification := "unknown", confidence := 0 }
  | PulseAnalysis.stats _ minW _ _ _ estBaud _ =>
    if 6 < minW ∧ minW < 12 then
      { classification := "EnviraCOM", confidence := 90, estimated_baud := some 120 }
    else if minW < 1 then
      { classification := "RS-485", confidence := 80,
        estimated_baud := some (match closest_rate minW with
          | some r => if r = 0 then pyInt estBaud else (r : ℤ)
          | none => pyInt estBaud) }
    else
      { classification := "unknown", confidence := 30, estimated_baud := some (pyInt estBaud) }

/-- Python float `%` for a positive modulus, exactly on rationals. -/
def qmod (a b : ℚ) : ℚ := a - b * ⌊a / b⌋

/-- `statistics.variance`: sample variance with denominator `n - 1`. -/
def sampleVariance (xs : List ℚ) : ℚ :=
  let n : ℚ := (xs.length : ℚ)
  let m := xs.sum / n
  ((xs.map fun x => (x - m) ^ 2).sum) / (n - 1)

/-- The dict returned by `check_ac_synchronization`; the "Not enough edges"
dict carries only `synchronized` and `reason`. -/
structure SyncResult where
  synchronized : Bool
  phase_variance : Option ℚ := none
  ac_frequency : Option ℚ := none
  reason : String
  deriving Repr, DecidableEq

/-- `check_ac_synchronization` of `tools/signal_analyze.py`. It starts with
`find_edges(samples)` (default threshold `0.5`), so an empty sample list makes
it raise (`none`); otherwise each edge time is reduced to a phase within an AC
half-period and the trace is called synchronized iff the sample variance of
the phases is below `0.1`. -/
def check_ac_synchronization (samples : List (ℚ × ℚ)) (ac_freq : ℚ := 60) :
    Option SyncResult :=
  match find_edges samples (mkRat 1 2) with
  | none => none
  | some edges =>
    if edges.length < 10 then
      some { synchronized := false, reason := "Not enough edges" }
    else
      let half := (1 / ac_freq) / 2
      let phases := edges.map fun e => qmod e.1 half / half
      let pv := if phases.length > 1 then sampleVariance phases else 1
      let sync := pv < mkRat 1 10
      some { synchronized := sync, phase_variance := some pv,
             ac_frequency := some ac_freq,
             reason := if sync then "Edges aligned to AC zero-crossings"
                       else "Edges not synchronized to AC" }

/-! ## Specification-side definitions

These definitions transcribe the WORDING of the specification's claims (not
the code); the theorems below compare them against the code model. -/

/-- Claim wording (C3): entries are "in descending order of count with ties
broken by ascending numeric value". -/
def rankedByCountThenValue (l : List (Nat × Nat)) : Prop :=
  l.Pairwise fun a b => b.2 < a.2 ∨ (a.2 = b.2 ∧ a.1 < b.1)

/-- Claim wording (C4): "there exist `L` in `{10,12,14,16}` and an offset `i`
with `0 ≤ i ≤ len(data) - 2L` such that `data[i:i+L]` equals
`data[i+L:i+2L]`" — the final possible offset `i = len - 2L` included. -/
def claimRepeats (data : List Nat) : Bool :=
  [10, 12, 14, 16].any fun L =>
    (List.range (data.length + 1)).any fun i =>
      decide (i + 2 * L ≤ data.length) &&
      decide ((data.drop i).take L = (data.drop (i + L)).take L)

/-- The amended pattern condition: as `claimRepeats`, but with the strict
bound `i + 2L < len(data)` that `range(len(data) - pattern_len * 2)`
actually enumerates (the final offset `i = len - 2L` is never checked). -/
def amendedRepeats (data : List Nat) : Bool :=
  [10, 12, 14, 16].any fun L =>
    (List.range (data.length + 1)).any fun i =>
      decide (i + 2 * L < data.length) &&
      decide ((data.drop i).take L = (data.drop (i + L)).take L)

/-- Claim wording (C4): the quality score is "clamp to `[0,100]` of: 50,
minus 30 if `(count(0x00)+count(0xFF))/total > 0.3`, plus 20 if the
printable-ASCII ratio is strictly between 0.05 and 0.5, plus 30 if a
repeating pattern is present", the pattern condition passed in as `pat`. -/
def specScore (data : List Nat) (pat : Bool) : ℤ :=
  let noise : ℚ :=
    mkRat ((data.countP fun b => b = 0) + (data.countP fun b => b = 255)) data.length
  let printable : ℚ := mkRat (data.countP fun b => 32 ≤ b ∧ b < 127) data.length
  max 0 (min 100 ((50 : ℤ) - (if noise > mkRat 3 10 then 30 else 0)
    + (if mkRat 1 20 < printable ∧ printable < mkRat 1 2 then 20 else 0)
    + (if pat then 30 else 0)))

/-! ## C1 — raw length versus header + payload + checksum -/

/-- C1, counterexample: a 13-byte all-zero input decodes with `parse_error`
unset, yet `raw.length = 13 ≠ 10 + 0 + 2`: the parser accepts trailing slack
bytes between the declared payload and the checksum without flagging them. -/
theorem c1_cx_slack_accepted :
    (Packet.from_bytes (List.replicate 13 0) 0).parse_error = none ∧
    (Packet.from_bytes (List.replicate 13 0) 0).payload.length = 0 ∧
    (Packet.from_bytes (List.replicate 13 0) 0).raw.length ≠
      10 + (Packet.from_bytes (List.replicate 13 0) 0).payload.length + 2 := by
  refine ⟨by decide, by decide, by decide⟩

/-- C1, amended: whenever `parse_error` is unset, the raw length is at LEAST
`10 (header) + payload.length + 2 (checksum)` (equality can fail, as slack
bytes are not rejected), and the payload has exactly the declared length. -/
theorem c1_length_lower_bound (data : List Nat) (ts : ℚ)
    (h : (Packet.from_bytes data ts).parse_error = none) :
    10 + (Packet.from_bytes data ts).payload.length + 2 ≤
      (Packet.from_bytes data ts).raw.length ∧
    (Packet.from_bytes data ts).payload.length =
      (Packet.from_bytes data ts).payload_length := by
  by_cases h12 : data.length < 12
  · exfalso
    simp only [Packet.from_bytes, if_pos h12] at h
    exact Option.some_ne_none _ h
  · simp only [Packet.from_bytes, if_neg h12] at h ⊢
    by_cases hm : data.length - 2 < 10 + data.getD 6 0
    · rw [if_pos (decide_eq_true hm)] at h
      exact absurd h (Option.some_ne_none _)
    · rw [if_neg (fun hc => hm (of_decide_eq_true hc))]
      simp only [List.length_take, List.length_drop]
      omega

/-- C1, witness for the amended bound at the minimal 12-byte frame. -/
theorem c1_length_lower_bound_witness :
    10 + (Packet.from_bytes (List.replicate 12 0) 0).payload.length + 2 ≤
      (Packet.from_bytes (List.replicate 12 0) 0).raw.length ∧
    (Packet.from_bytes (List.replicate 12 0) 0).payload.length =
      (Packet.from_bytes (List.replicate 12 0) 0).payload_length :=
  c1_length_lower_bound (List.replicate 12 0) 0 (by decide)

/-! ## C2 — truncated capture records -/

/-- C2, counterexample: a capture stream whose single record declares length 5
but is followed by only 2 bytes. The claim says the record is truncated to
`[0xAA, 0xBB]`, flagged, and still yielded; the reader in fact drops it and
returns no record at all. -/
theorem c2_cx_truncated_record_dropped :
    load_capture (List.replicate 8 0 ++ [5, 0, 0, 0] ++ [170, 187]) = [] := by
  decide

/-- C2, amended: a record whose declared length exceeds the remaining bytes is
discarded — not truncated, not yielded — and reading simply stops there
(the reader itself never fails; it returns the records read so far, here
none). -/
theorem c2_reader_stops_at_truncated_record (tsB lenB extra : List Nat)
    (h8 : tsB.length = 8) (h4 : lenB.length = 4)
    (hlt : extra.length < leU32 lenB) :
    load_capture (tsB ++ lenB ++ extra) = [] := by
  have hassoc : tsB ++ lenB ++ extra = (tsB ++ lenB) ++ extra := rfl
  have h12 : (tsB ++ lenB).length = 12 := by simp [h8, h4]
  have hlen : (tsB ++ lenB ++ extra).length = extra.length + 12 := by
    simp [h8, h4]; omega
  rw [load_capture, hlen]
  rw [show extra.length + 12 = (extra.length + 11) + 1 from rfl]
  rw [load_capture_go]
  rw [if_neg (by omega : ¬ (tsB ++ lenB ++ extra).length < 12)]
  have htake : (tsB ++ lenB ++ extra).take 12 = tsB ++ lenB := by
    rw [hassoc, ← h12, List.take_left]
  have hdrop : (tsB ++ lenB ++ extra).drop 12 = extra := by
    rw [hassoc, ← h12, List.drop_left]
  simp only [htake, hdrop]
  have hdrop8 : (tsB ++ lenB).drop 8 = lenB := by rw [← h8, List.drop_left]
  rw [hdrop8]
  rw [if_pos]
  simp only [List.length_take]
  omega

/-- C2, witness for the amended behaviour at a concrete truncated stream. -/
theorem c2_reader_stops_witness :
    load_capture (List.replicate 8 1 ++ [9, 0, 0, 0] ++ [1, 2, 3]) = [] :=
  c2_reader_stops_at_truncated_record (List.replicate 8 1) [9, 0, 0, 0] [1, 2, 3]
    (by decide) (by decide) (by decide)

/-! ## C8 — frames under 12 bytes -/

/-- C8: every input shorter than 12 bytes yields a packet whose `parse_error`
message contains "too short" and whose parsed fields all keep their zero
defaults; the parser returns normally (it is a total function). -/
theorem c8_short_frame_flagged (data : List Nat) (ts : ℚ)
    (h : data.length < 12) :
    (∃ pre suf, (Packet.from_bytes data ts).parse_error =
        some (pre ++ "too short" ++ suf)) ∧
    (Packet.from_bytes data ts).dest_addr = 0 ∧
    (Packet.from_bytes data ts).src_addr = 0 ∧
    (Packet.from_bytes data ts).msg_type = 0 ∧
    (Packet.from_bytes data ts).sequence = 0 ∧
    (Packet.from_bytes data ts).payload_length = 0 ∧
    (Packet.from_bytes data ts).header_extra = [] ∧
    (Packet.from_bytes data ts).payload = [] ∧
    (Packet.from_bytes data ts).checksum = 0 ∧
    (Packet.from_bytes data ts).checksum_valid = false := by
  constructor
  · refine ⟨"Packet ", ": " ++ toString data.length ++ " bytes", ?_⟩
    simp only [Packet.from_bytes, if_pos h]
    have hsplit : ("Packet too short: " : String) =
        "Packet " ++ ("too short" ++ ": ") := by decide
    rw [hsplit, String.append_assoc, String.append_assoc]
    rfl
  · simp [Packet.from_bytes, if_pos h]

/-- C8, witness at the 10-zero-byte frame used by the repository's own test. -/
theorem c8_short_frame_flagged_witness :
    (∃ pre suf, (Packet.from_bytes (List.replicate 10 0) 0).parse_error =
        some (pre ++ "too short" ++ suf)) ∧
    (Packet.from_bytes (List.replicate 10 0) 0).dest_addr = 0 ∧
    (Packet.from_bytes (List.replicate 10 0) 0).src_addr = 0 ∧
    (Packet.from_bytes (List.replicate 10 0) 0).msg_type = 0 ∧
    (Packet.from_bytes (List.replicate 10 0) 0).sequence = 0 ∧
    (Packet.from_bytes (List.replicate 10 0) 0).payload_length = 0 ∧
    (Packet.from_bytes (List.replicate 10 0) 0).header_extra = [] ∧
    (Packet.from_bytes (List.replicate 10 0) 0).payload = [] ∧
    (Packet.from_bytes (List.replicate 10 0) 0).checksum = 0 ∧
    (Packet.from_bytes (List.replicate 10 0) 0).checksum_valid = false :=
  c8_short_frame_flagged (List.replicate 10 0) 0 (by decide)

/-! ## C3 — frequency ranking order -/

/-- Every element of an insertion result is the inserted entry or an original
element. -/
theorem insertByCountDesc_mem (x z : Nat × Nat) (l : List (Nat × Nat))
    (h : z ∈ insertByCountDesc x l) : z = x ∨ z ∈ l := by
  induction l with
  | nil =>
    simp only [insertByCountDesc, List.mem_singleton] at h
    exact Or.inl h
  | cons y ys ih =>
    by_cases hc : x.2 < y.2
    · simp only [insertByCountDesc, if_pos hc] at h
      rcases List.mem_cons.mp h with h1 | h2
      · exact Or.inr (by simp [h1])
      · rcases ih h2 with h3 | h4
        · exact Or.inl h3
        · exact Or.inr (List.mem_cons_of_mem _ h4)
    · simp only [insertByCountDesc, if_neg hc] at h
      rcases List.mem_cons.mp h with h1 | h2
      · exact Or.inl h1
      · exact Or.inr h2

/-- Insertion keeps the list sorted by descending count. -/
theorem insertByCountDesc_pairwise (x : Nat × Nat) (l : List (Nat × Nat))
    (h : l.Pairwise fun a b => b.2 ≤ a.2) :
    (insertByCountDesc x l).Pairwise fun a b => b.2 ≤ a.2 := by
  induction l with
  | nil => simp [insertByCountDesc]
  | cons y ys ih =>
    rcases List.pairwise_cons.mp h with ⟨hy, hys⟩
    by_cases hc : x.2 < y.2
    · simp only [insertByCountDesc, if_pos hc]
      refine List.pairwise_cons.mpr ⟨?_, ih hys⟩
      intro z hz
      rcases insertByCountDesc_mem x z ys hz with rfl | hzys
      · exact le_of_lt hc
      · exact hy z hzys
    · simp only [insertByCountDesc, if_neg hc]
      refine List.pairwise_cons.mpr ⟨?_, h⟩
      intro z hz
      rcases List.mem_cons.mp hz with rfl | hzys
      · omega
      · exact le_trans (hy z hzys) (by omega)

/-- The stable sort is sorted by descending count. -/
theorem sortByCountDesc_pairwise (l : List (Nat × Nat)) :
    (sortByCountDesc l).Pairwise fun a b => b.2 ≤ a.2 := by
  induction l with
  | nil => simp [sortByCountDesc]
  | cons x xs ih => exact insertByCountDesc_pairwise x _ ih

/-- C3, counterexample: one valid packet with `src_addr = 5`, `dest_addr = 3`
puts address 5 into the counter first, so `most_common` (a stable descending
sort) reports `[(5, 1), (3, 1)]`: entries with tied counts are NOT in
ascending numeric order. -/
theorem c3_cx_tie_order_not_ascending :
    address_frequencies [Packet.from_bytes [0, 3, 0, 5, 0, 0, 0, 0, 0, 0, 0, 0] 0] =
      [(5, 1), (3, 1)] ∧
    ¬ rankedByCountThenValue
        (address_frequencies [Packet.from_bytes [0, 3, 0, 5, 0, 0, 0, 0, 0, 0, 0, 0] 0]) := by
  have hval : address_frequencies [Packet.from_bytes [0, 3, 0, 5, 0, 0, 0, 0, 0, 0, 0, 0] 0] =
      [(5, 1), (3, 1)] := by decide
  refine ⟨hval, ?_⟩
  rw [hval, rankedByCountThenValue]
  intro hr
  rcases List.pairwise_cons.mp hr with ⟨h1, -⟩
  rcases h1 (3, 1) (by simp) with h | ⟨-, h⟩ <;> omega

/-- C3, amended: both rankings are in descending order of count; ties keep the
counter's first-insertion order (Python's sort is stable), not ascending
numeric order; and repeated runs over the same packet set yield identical
ordered output. -/
theorem c3_rankings_sorted_desc (packets : List Packet) :
    ((address_frequencies packets).Pairwise fun a b => b.2 ≤ a.2) ∧
    ((message_type_frequencies packets).Pairwise fun a b => b.2 ≤ a.2) ∧
    address_frequencies packets = address_frequencies packets ∧
    message_type_frequencies packets = message_type_frequencies packets :=
  ⟨sortByCountDesc_pairwise _, sortByCountDesc_pairwise _, rfl, rfl⟩

/-! ## C4 — baud-rate quality score -/

/-- The scan `range(len(data) - pattern_len * 2)` checks exactly the offsets
with `i + 2L < len(data)` — one short of the claimed `i + 2L ≤ len(data)`. -/
theorem hasRepeats_eq_amendedRepeats (data : List Nat) :
    hasRepeats data = amendedRepeats data := by
  rw [Bool.eq_iff_iff]
  simp only [hasRepeats, amendedRepeats, List.any_eq_true, List.mem_range,
    Bool.and_eq_true, decide_eq_true_eq]
  constructor
  · rintro ⟨L, hL, i, hi, heq⟩
    exact ⟨L, hL, i, by omega, by omega, heq⟩
  · rintro ⟨L, hL, i, hi, hlt, heq⟩
    exact ⟨L, hL, i, by omega, heq⟩

/-- C4, counterexample: twenty bytes made of two identical ten-byte halves.
The claim's offset range (`i = 0`, `L = 10`, `i + 2L = 20 ≤ 20`) finds the
repeat and yields score 80; the code's `range(20 - 20)` is empty, so the
pattern bonus is never granted and the score is 50. -/
theorem c4_cx_final_offset_missed :
    (analyze_data_quality
        [1, 2, 3, 4, 5, 6, 7, 8, 9, 10, 1, 2, 3, 4, 5, 6, 7, 8, 9, 10]).score = 50 ∧
    specScore [1, 2, 3, 4, 5, 6, 7, 8, 9, 10, 1, 2, 3, 4, 5, 6, 7, 8, 9, 10]
      (claimRepeats [1, 2, 3, 4, 5, 6, 7, 8, 9, 10, 1, 2, 3, 4, 5, 6, 7, 8, 9, 10]) = 80 := by
  constructor <;> decide

/-- C4, amended: for every non-empty sample the score equals the claimed
clamped formula, with the repeating-pattern condition restricted to offsets
`0 ≤ i < len(data) - 2L` (the final offset `i = len(data) - 2L` is never
checked by the code). -/
theorem c4_score_formula (data : List Nat) (h : data ≠ []) :
    (analyze_data_quality data).score = specScore data (amendedRepeats data) := by
  have hlen : ¬ data.length = 0 := fun h0 => h (List.length_eq_zero.mp h0)
  have hp : (fun b : Nat => decide (32 ≤ b ∧ b < 127))
      = fun b : Nat => decide (32 ≤ b) && decide (b < 127) := by
    funext b
    by_cases h1 : 32 ≤ b <;> by_cases h2 : b < 127 <;> simp [h1, h2]
  simp only [analyze_data_quality, if_neg hlen, specScore,
    List.countP_eq_length_filter, hp, ← hasRepeats_eq_amendedRepeats]
  split_ifs <;> decide

/-- C4, witness for the amended formula at the one-byte sample `[0]`. -/
theorem c4_score_formula_witness :
    [0] ≠ ([] : List Nat) ∧
    (analyze_data_quality [0]).score = specScore [0] (amendedRepeats [0]) :=
  ⟨by decide, c4_score_formula [0] (by decide)⟩

/-! ## C5 — zero-byte baud candidates -/

/-- C5, counterexample: with a sampler that yields no bytes at any rate, the
probing loop's result list is empty: the zero-byte candidate 9600 (and every
other) is NOT retained in the list returned to the caller. -/
theorem c5_cx_zero_byte_candidate_missing :
    9600 ∈ COMMON_BAUD_RATES ∧
    probe_loop COMMON_BAUD_RATES (fun _ => []) false = [] := by
  constructor <;> decide

/-- C5, amended: a candidate whose sample is empty never appears in the result
list — `main` only appends candidates with `byte_count > 0`.
`analyze_data_quality` would indeed score an empty sample 0 with reason
"No data received" (so capitalized in the code), but `main` never calls it on
one. -/
theorem c5_zero_byte_candidate_skipped (rates : List Nat) (sample : Nat → List Nat)
    (try_all : Bool) (b : Nat) (_hb : b ∈ rates) (hz : sample b = []) :
    (∀ r ∈ probe_loop rates sample try_all, r.baud ≠ b) ∧
    (analyze_data_quality []).score = 0 ∧
    (analyze_data_quality []).reason = "No data received" := by
  refine ⟨?_, by decide, by decide⟩
  clear _hb
  induction rates with
  | nil => intro r hr; simp [probe_loop] at hr
  | cons b0 rest ih =>
    intro r hr
    simp only [probe_loop] at hr
    by_cases h0 : (sample b0).length > 0
    · have hb0 : b0 ≠ b := by
        intro he
        rw [he, hz] at h0
        simp at h0
      rw [if_pos h0] at hr
      by_cases hstop : (analyze_data_quality (sample b0)).score ≥ 80 ∧ try_all = false
      · rw [if_pos hstop] at hr
        rw [List.mem_singleton.mp hr]
        exact hb0
      · rw [if_neg hstop] at hr
        rcases List.mem_cons.mp hr with h1 | h2
        · rw [h1]; exact hb0
        · exact ih r h2
    · rw [if_neg h0] at hr
      exact ih r hr

/-- C5, witness: a one-rate probe whose sampler yields nothing. -/
theorem c5_zero_byte_candidate_skipped_witness :
    9600 ∈ [9600] ∧ (fun _ : Nat => ([] : List Nat)) 9600 = [] ∧
    ((∀ r ∈ probe_loop [9600] (fun _ => ([] : List Nat)) false, r.baud ≠ 9600) ∧
     (analyze_data_quality []).score = 0 ∧
     (analyze_data_quality []).reason = "No data received") :=
  ⟨by decide, rfl,
    c5_zero_byte_candidate_skipped [9600] (fun _ => []) false 9600 (by decide) rfl⟩

/-! ## C6 — to_hex -/

/-- C6 (code bug): the separator-`" "` rendering of the raw bytes
`de ad be ef` works, but the separator-`""` call — which the specification
and the repository's own test `test_to_hex` expect to return `"deadbeef"` —
raises `ValueError: sep must be length 1.` in CPython `bytes.hex`. -/
theorem c6_to_hex_empty_sep_raises :
    Packet.to_hex (Packet.mk [222, 173, 190, 239] 0 0 0 0 0 0 [] [] 0 false none)
        " " = Except.ok "de ad be ef" ∧
    Packet.to_hex (Packet.mk [222, 173, 190, 239] 0 0 0 0 0 0 [] [] 0 false none)
        "" = Except.error "sep must be length 1." :=
  ⟨rfl, rfl⟩

/-! ## C7 — totality on malformed input -/

/-- C7, counterexample: on the empty sample list — explicitly included by the
claim — `find_edges` evaluates `samples[0]` and raises `IndexError`, and
`check_ac_synchronization`, which calls it first, raises too (`none` is the
model's uncaught exception). -/
theorem c7_cx_empty_samples_raise :
    (find_edges [] (mkRat 1 2)).isSome = false ∧
    (check_ac_synchronization [] 60).isSome = false := by
  constructor <;> decide

/-- C7, amended: the analysis operations return results rather than raising on
every input EXCEPT `find_edges` and `check_ac_synchronization` on an empty
sample list: for non-empty samples both return a result; `decode` flags short
input instead of raising; `analyze_pulse_widths` reports an error state for
fewer than two edges; `classify_physical_layer` turns an error analysis into
an `"unknown"`/confidence-0 result. -/
theorem c7_totality_except_empty_samples :
    (∀ (samples : List (ℚ × ℚ)) (th : ℚ), samples ≠ [] →
      (find_edges samples th).isSome = true) ∧
    (∀ (samples : List (ℚ × ℚ)) (f : ℚ), samples ≠ [] →
      (check_ac_synchronization samples f).isSome = true) ∧
    (∀ (data : List Nat) (ts : ℚ), data.length < 12 →
      (Packet.from_bytes data ts).parse_error.isSome = true) ∧
    (∀ edges : List (ℚ × String), edges.length < 2 →
      analyze_pulse_widths edges = PulseAnalysis.err "Not enough edges") ∧
    (∀ m : String, classify_physical_layer (PulseAnalysis.err m) =
      { classification := "unknown", confidence := 0 }) := by
  refine ⟨?_, ?_, ?_, ?_, fun m => rfl⟩
  · rintro (_ | ⟨⟨t, v⟩, rest⟩) th hne
    · exact absurd rfl hne
    · rfl
  · rintro (_ | ⟨⟨t, v⟩, rest⟩) f hne
    · exact absurd rfl hne
    · simp only [check_ac_synchronization, find_edges]
      split <;> rfl
  · intro data ts h
    simp [Packet.from_bytes, if_pos h]
  · intro edges h
    simp [analyze_pulse_widths, if_pos h]

/-- C7, witness: each amended conjunct applied at a concrete input. -/
theorem c7_totality_witness :
    (find_edges [((0 : ℚ), (0 : ℚ))] (mkRat 1 2)).isSome = true ∧
    (check_ac_synchronization [((0 : ℚ), (1 : ℚ))] 60).isSome = true ∧
    (Packet.from_bytes [] 0).parse_error.isSome = true ∧
    analyze_pulse_widths [] = PulseAnalysis.err "Not enough edges" ∧
    classify_physical_layer (PulseAnalysis.err "boom") =
      { classification := "unknown", confidence := 0 } :=
  ⟨c7_totality_except_empty_samples.1 _ _ (by decide),
   c7_totality_except_empty_samples.2.1 _ _ (by decide),
   c7_totality_except_empty_samples.2.2.1 _ 0 (by decide),
   c7_totality_except_empty_samples.2.2.2.1 _ (by decide),
   c7_totality_except_empty_samples.2.2.2.2 _⟩

/-! ## C9 / C10 — physical-layer classification -/

/-- Invariant of the best-match scan: starting from a candidate `(r0, d0)`,
the fold ends on a candidate drawn from the start value or the list, whose
difference is a lower bound of the start difference and of every difference
in the list. -/
theorem foldl_closestStep_min (w : ℚ) (l : List (Nat × ℚ)) :
    ∀ (r0 : Nat) (d0 : ℚ),
      ∃ r d, l.foldl (closestStep w) (some r0, some d0) = (some r, some d) ∧
        ((r = r0 ∧ d = d0) ∨ ∃ p, (r, p) ∈ l ∧ d = qabs (w - p)) ∧
        d ≤ d0 ∧ ∀ x ∈ l, d ≤ qabs (w - x.2) := by
  induction l with
  | nil =>
    intro r0 d0
    exact ⟨r0, d0, rfl, Or.inl ⟨rfl, rfl⟩, le_refl _, by simp⟩
  | cons y ys ih =>
    intro r0 d0
    simp only [List.foldl_cons]
    by_cases hc : qabs (w - y.2) < d0
    · rw [show closestStep w (some r0, some d0) y = (some y.1, some (qabs (w - y.2)))
        from by simp [closestStep, if_pos hc]]
      rcases ih y.1 (qabs (w - y.2)) with ⟨r, d, heq, hsrc, hle, hall⟩
      refine ⟨r, d, heq, ?_, le_trans hle (le_of_lt hc), ?_⟩
      · rcases hsrc with ⟨rfl, rfl⟩ | ⟨p, hp, rfl⟩
        · exact Or.inr ⟨y.2, by simp, rfl⟩
        · exact Or.inr ⟨p, List.mem_cons_of_mem _ hp, rfl⟩
      · intro x hx
        rcases List.mem_cons.mp hx with rfl | hxs
        · exact hle
        · exact hall x hxs
    · rw [show closestStep w (some r0, some d0) y = (some r0, some d0)
        from by simp [closestStep, if_neg hc]]
      rcases ih r0 d0 with ⟨r, d, heq, hsrc, hle, hall⟩
      refine ⟨r, d, heq, ?_, hle, ?_⟩
      · rcases hsrc with h | ⟨p, hp, rfl⟩
        · exact Or.inl h
        · exact Or.inr ⟨p, List.mem_cons_of_mem _ hp, rfl⟩
      · intro x hx
        rcases List.mem_cons.mp hx with rfl | hxs
        · exact le_trans hle (not_lt.mp hc)
        · exact hall x hxs

/-- The `best_match` loop always settles on a table entry whose period is
closest (by absolute difference) to the measured width. -/
theorem closest_rate_min (w : ℚ) :
    ∃ r p, closest_rate w = some r ∧ (r, p) ∈ rs485_rates ∧
      ∀ x ∈ rs485_rates, qabs (w - p) ≤ qabs (w - x.2) := by
  rcases foldl_closestStep_min w
      [(19200, mkRat 52 1000), (38400, mkRat 26 1000),
       (57600, mkRat 17 1000), (115200, mkRat 87 10000)]
      9600 (qabs (w - mkRat 104 1000)) with ⟨r, d, heq, hsrc, hle, hall⟩
  have hcr : closest_rate w = some r := by
    unfold closest_rate
    rw [show rs485_rates.foldl (closestStep w) (none, none)
        = List.foldl (closestStep w) (some 9600, some (qabs (w - mkRat 104 1000)))
            [(19200, mkRat 52 1000), (38400, mkRat 26 1000),
             (57600, mkRat 17 1000), (115200, mkRat 87 10000)] from rfl, heq]
  have hall5 : ∀ x ∈ rs485_rates, d ≤ qabs (w - x.2) := by
    intro x hx
    simp only [rs485_rates] at hx
    rcases List.mem_cons.mp hx with rfl | hxs
    · exact hle
    · exact hall x hxs
  rcases hsrc with ⟨rfl, rfl⟩ | ⟨p, hp, rfl⟩
  · exact ⟨9600, mkRat 104 1000, hcr, by simp [rs485_rates], hall5⟩
  · exact ⟨r, p, hcr, by
      simp only [rs485_rates]
      exact List.mem_cons_of_mem _ hp, hall5⟩

/-- Every table entry's key is one of the five RS-485 rates, all nonzero. -/
theorem rs485_key_of_mem (r : Nat) (p : ℚ) (h : (r, p) ∈ rs485_rates) :
    r ∈ [9600, 19200, 38400, 57600, 115200] ∧ r ≠ 0 := by
  simp only [rs485_rates, List.mem_cons, List.not_mem_nil, or_false,
    Prod.mk.injEq] at h
  rcases h with ⟨rfl, -⟩ | ⟨rfl, -⟩ | ⟨rfl, -⟩ | ⟨rfl, -⟩ | ⟨rfl, -⟩ <;> decide

/-- C9: a minimum pulse width strictly between 6 ms and 12 ms classifies as
EnviraCOM with confidence 90 and estimated baud 120; a minimum width under
1 ms classifies as RS-485 with confidence 80 and an estimated baud taken from
the fixed rate table at minimal absolute period difference; anything else is
`"unknown"` with confidence 30. -/
theorem c9_classification_rules (pc : Nat) (minW maxW meanW medW eb : ℚ)
    (ws : List ℚ) :
    ((6 < minW ∧ minW < 12) →
      classify_physical_layer (PulseAnalysis.stats pc minW maxW meanW medW eb ws) =
        { classification := "EnviraCOM", confidence := 90,
          estimated_baud := some 120 }) ∧
    (minW < 1 →
      (classify_physical_layer
          (PulseAnalysis.stats pc minW maxW meanW medW eb ws)).classification =
        "RS-485" ∧
      (classify_physical_layer
          (PulseAnalysis.stats pc minW maxW meanW medW eb ws)).confidence = 80 ∧
      ∃ r p, (r, p) ∈ rs485_rates ∧
        (classify_physical_layer
            (PulseAnalysis.stats pc minW maxW meanW medW eb ws)).estimated_baud =
          some (r : ℤ) ∧
        ∀ x ∈ rs485_rates, qabs (minW - p) ≤ qabs (minW - x.2)) ∧
    (¬ (6 < minW ∧ minW < 12) → ¬ minW < 1 →
      classify_physical_layer (PulseAnalysis.stats pc minW maxW meanW medW eb ws) =
        { classification := "unknown", confidence := 30,
          estimated_baud := some (pyInt eb) }) := by
  refine ⟨?_, ?_, ?_⟩
  · intro h
    simp only [classify_physical_layer]
    rw [if_pos h]
  · intro h1
    have hnot : ¬ (6 < minW ∧ minW < 12) := by
      rintro ⟨h6, -⟩
      linarith
    simp only [classify_physical_layer]
    rw [if_neg hnot, if_pos h1]
    rcases closest_rate_min minW with ⟨r, p, hcr, hmem, hmin⟩
    have hr0 : r ≠ 0 := (rs485_key_of_mem r p hmem).2
    refine ⟨rfl, rfl, r, p, hmem, ?_, hmin⟩
    rw [hcr]
    simp [hr0]
  · intro h1 h2
    simp only [classify_physical_layer]
    rw [if_neg h1, if_neg h2]

/-- C9, witness: the spec's own examples — min width 8.33 ms is EnviraCOM at
confidence 90, and min width 0.052 ms snaps to an RS-485 baud of 19200. -/
theorem c9_classification_rules_witness :
    ((6 < (mkRat 833 100 : ℚ) ∧ (mkRat 833 100 : ℚ) < 12) ∧
     classify_physical_layer (PulseAnalysis.stats 9 (mkRat 833 100) 9 9 9 120 []) =
       { classification := "EnviraCOM", confidence := 90,
         estimated_baud := some 120 }) ∧
    (classify_physical_layer
        (PulseAnalysis.stats 5 (mkRat 52 1000) 1 1 1 19230 [])).estimated_baud =
      some 19200 := by
  have hc : 6 < (mkRat 833 100 : ℚ) ∧ (mkRat 833 100 : ℚ) < 12 := by
    norm_num [Rat.mkRat_eq_div]
  refine ⟨⟨hc, (c9_classification_rules 9 (mkRat 833 100) 9 9 9 120 []).1 hc⟩, ?_⟩
  norm_num [classify_physical_layer, closest_rate, rs485_rates, closestStep,
    qabs, Rat.mkRat_eq_div, List.foldl]

/-- C10: the RS-485 best-match scan always returns one of the five nonzero
table rates (so the `or int(estimated_baud)` fallback can never be taken),
and every RS-485 classification reports an estimated baud from the table. -/
theorem c10_rs485_baud_always_in_table :
    (∀ w : ℚ, ∃ r : Nat, closest_rate w = some r ∧ r ≠ 0 ∧
        r ∈ [9600, 19200, 38400, 57600, 115200]) ∧
    (∀ a : PulseAnalysis, (classify_physical_layer a).classification = "RS-485" →
      ∃ r : Nat, (classify_physical_layer a).estimated_baud = some (r : ℤ) ∧
        r ∈ [9600, 19200, 38400, 57600, 115200]) := by
  constructor
  · intro w
    rcases closest_rate_min w with ⟨r, p, hcr, hmem, -⟩
    rcases rs485_key_of_mem r p hmem with ⟨hin, hr0⟩
    exact ⟨r, hcr, hr0, hin⟩
  · intro a h
    match a with
    | PulseAnalysis.err m =>
      simp [classify_physical_layer] at h
    | PulseAnalysis.stats pc minW maxW meanW medW eb ws =>
      simp only [classify_physical_layer] at h ⊢
      by_cases h1 : 6 < minW ∧ minW < 12
      · rw [if_pos h1] at h
        simp at h
      · rw [if_neg h1] at h ⊢
        by_cases h2 : minW < 1
        · rw [if_pos h2]
          rcases closest_rate_min minW with ⟨r, p, hcr, hmem, -⟩
          rcases rs485_key_of_mem r p hmem with ⟨hin, hr0⟩
          refine ⟨r, ?_, hin⟩
          rw [hcr]
          simp [hr0]
        · rw [if_neg h2] at h
          simp at h

/-- C10, witness: a 0.052 ms minimum width classifies RS-485 and its reported
baud is one of the five table rates. -/
theorem c10_rs485_baud_witness :
    (classify_physical_layer
        (PulseAnalysis.stats 5 (mkRat 52 1000) 1 1 1 19230 [])).classification =
      "RS-485" ∧
    ∃ r : Nat,
      (classify_physical_layer
          (PulseAnalysis.stats 5 (mkRat 52 1000) 1 1 1 19230 [])).estimated_baud =
        some (r : ℤ) ∧
      r ∈ [9600, 19200, 38400, 57600, 115200] := by
  have hcl : (classify_physical_layer
      (PulseAnalysis.stats 5 (mkRat 52 1000) 1 1 1 19230 [])).classification =
      "RS-485" := by
    norm_num [classify_physical_layer, Rat.mkRat_eq_div]
  exact ⟨hcl, c10_rs485_baud_always_in_table.2 _ hcl⟩

end Tranespotting
